import Mathlib

/-!
Shallow embedding of `custom_components/donetick/todo.py` (floco/donetick-hass-integration).

Python strings are modelled as Lean `String` (for names and labels) or `List Char`
(for uids and timestamp renderings, where the claims reason about the characters).
Python `None` becomes `Option`, Python exceptions become `Except PyErr`, and the
awaited API client is an oracle function passed in explicitly.  Python truthiness
is spelled out wherever the source relies on it (`if not x:` on lists, ints, strings).
-/

namespace Donetick

/-! ### Python `str` primitives

`str.lower` and `str.strip` are modelled character-wise on the string's data
(ASCII case folding, whitespace trimming), matching their use in `todo.py`. -/

def pyLower (s : String) : String := String.mk (s.data.map Char.toLower)

def pyStrip (s : String) : String :=
  String.mk (((s.data.dropWhile Char.isWhitespace).reverse.dropWhile Char.isWhitespace).reverse)

/-! ### `str(int)` and `int(str)`

`str` of a Python integer renders a decimal numeral, with a leading `-` for
negatives; `int(...)` parses an optional sign followed by decimal digits and
raises `ValueError` (here: `none`) otherwise. -/

def digitChar : Nat → Char
  | 0 => '0'
  | 1 => '1'
  | 2 => '2'
  | 3 => '3'
  | 4 => '4'
  | 5 => '5'
  | 6 => '6'
  | 7 => '7'
  | 8 => '8'
  | _ => '9'

def natCharsAux : Nat → Nat → List Char
  | 0, _ => []
  | fuel + 1, n =>
    if n < 10 then [digitChar n]
    else natCharsAux fuel (n / 10) ++ [digitChar (n % 10)]

def natChars (n : Nat) : List Char := natCharsAux (n + 1) n

def intChars (i : Int) : List Char :=
  if i < 0 then '-' :: natChars i.natAbs else natChars i.toNat

def pyStrInt (i : Int) : String := String.mk (intChars i)

def digitVal (c : Char) : Nat := c.toNat - 48

def pyIntNat (s : List Char) : Option Nat :=
  match s with
  | [] => none
  | _ :: _ =>
    if s.all Char.isDigit then some (s.foldl (fun a c => 10 * a + digitVal c) 0)
    else none

def pyInt (s : List Char) : Option Int :=
  match s with
  | [] => none
  | c :: rest =>
    if c = '-' then (pyIntNat rest).map (fun n => -(Int.ofNat n))
    else (pyIntNat (c :: rest)).map (fun n => Int.ofNat n)

/-- First segment of Python's `s.split("--")`: the prefix of `s` before the
leftmost occurrence of `"--"` (the whole string when `"--"` does not occur). -/
def splitDD : List Char → List Char
  | [] => []
  | c :: rest =>
    if c = '-' ∧ rest.head? = some '-' then []
    else c :: splitDD rest

/-- Embeds `int(uid.split("--")[0])` (`todo.py` lines 289, 338, 361);
`none` models the `ValueError` raised on an unparseable first segment. -/
def parseTaskId (uid : List Char) : Option Int := pyInt (splitDD uid)

/-! ### Data model (`model.py` records as consumed by `todo.py`) -/

structure DtLabel where
  id : Option Int
  name : Option String
  color : Option String
deriving DecidableEq

structure DonetickTask where
  id : Int
  name : String
  description : Option String
  is_active : Bool
  next_due_date : Option (List Char)
  assigned_to : Option Int
  frequency_type : String
  labels_v2 : List DtLabel
  label_names : List String
deriving DecidableEq

structure DonetickMember where
  user_id : Int
  display_name : String
  username : String
  is_active : Bool
deriving DecidableEq

inductive TodoItemStatus
  | NeedsAction
  | Completed
deriving DecidableEq

structure TodoItem where
  summary : String
  uid : List Char
  status : TodoItemStatus
  due : Option (List Char)
  description : Option String
deriving DecidableEq

inductive PyErr
  | valueError
  | apiError
deriving DecidableEq

instance {ε α : Type} [DecidableEq ε] [DecidableEq α] : DecidableEq (Except ε α) := fun a b =>
  match a, b with
  | Except.ok x, Except.ok y =>
    if h : x = y then isTrue (by rw [h]) else isFalse (by intro hc; cases hc; exact h rfl)
  | Except.error e, Except.error f =>
    if h : e = f then isTrue (by rw [h]) else isFalse (by intro hc; cases hc; exact h rfl)
  | Except.ok _, Except.error _ => isFalse (by intro hc; cases hc)
  | Except.error _, Except.ok _ => isFalse (by intro hc; cases hc)

/-! ### Label helpers (`todo.py` lines 39-52) -/

/-- Embeds `_normalize_label_name`: falsy input gives `None`, else the stripped,
lower-cased name, with a falsy (empty) result collapsed back to `None`. -/
def _normalize_label_name (name : Option String) : Option String :=
  match name with
  | none => none
  | some s =>
    if s = "" then none
    else
      if pyLower (pyStrip s) = "" then none else some (pyLower (pyStrip s))

/-- Embeds `_label_key`: `id_<id>` when an id is present, else `name_<normalized>`
when the normalized name is truthy, else `None`. -/
def _label_key (label_id : Option Int) (normalized_name : Option String) : Option String :=
  match label_id with
  | some i => some ("id_" ++ pyStrInt i)
  | none =>
    match normalized_name with
    | some n => if n = "" then none else some ("name_" ++ n)
    | none => none

/-- Modelled from the spec: `DonetickTask.label_names_normalized` is provided by
`model.py`, which is not among the sources; per the spec a label is matched by
its "normalized (trimmed, case-folded) name", so this returns the normalized
names of the task's attached labels — the structured `labels_v2` entries when
present, else the legacy `label_names` strings. -/
def DonetickTask.label_names_normalized (t : DonetickTask) : List String :=
  if t.labels_v2 = [] then t.label_names.filterMap (fun n => _normalize_label_name (some n))
  else t.labels_v2.filterMap (fun l => _normalize_label_name l.name)

/-! ### `_collect_label_descriptors` (`todo.py` lines 55-88)

The Python dict `label_map` (insertion-ordered, insert-if-absent) is modelled as
an association list that appends a binding only when the key is not yet bound.
`sorted(..., key=lambda item: item["label_name"].lower())` is Python's stable
sort, modelled with `List.mergeSort` (also stable). -/

structure LabelDescriptor where
  label_id : Option Int
  label_name : String
  normalized_name : Option String
  color : Option String
deriving DecidableEq

/-- Python rendering of an optional int inside an f-string (`None` prints as `"None"`). -/
def pyStrOptIntRepr (i : Option Int) : String :=
  match i with
  | none => "None"
  | some i => pyStrInt i

/-- Python `x or d` for an optional string `x`: falsy (`None` or empty) gives `d`. -/
def pyOrStr (x : Option String) (d : String) : String :=
  match x with
  | none => d
  | some s => if s = "" then d else s

/-- The `label_map` entry built from a `labels_v2` label (key and descriptor),
`none` when `_label_key` is falsy and the label is skipped. -/
def labelEntryV2 (l : DtLabel) : Option (String × LabelDescriptor) :=
  match _label_key l.id (_normalize_label_name l.name) with
  | none => none
  | some k =>
    some (k, ⟨l.id, pyOrStr l.name ("Label " ++ pyStrOptIntRepr l.id),
              _normalize_label_name l.name, l.color⟩)

/-- The `label_map` entry built from a legacy `label_names` string. -/
def labelEntryName (n : String) : Option (String × LabelDescriptor) :=
  match _label_key none (_normalize_label_name (some n)) with
  | none => none
  | some k => some (k, ⟨none, n, _normalize_label_name (some n), none⟩)

/-- Insert-if-absent into the insertion-ordered `label_map`. -/
def insertKD (m : List (String × LabelDescriptor)) (kd : String × LabelDescriptor) :
    List (String × LabelDescriptor) :=
  if m.any (fun p => p.1 == kd.1) then m else m ++ [kd]

def insertDescriptor (m : List (String × LabelDescriptor))
    (e : Option (String × LabelDescriptor)) : List (String × LabelDescriptor) :=
  match e with
  | none => m
  | some kd => insertKD m kd

/-- One iteration of the outer `for task in tasks` loop: inactive tasks are
skipped, `labels_v2` is preferred, `label_names` is the fallback. -/
def collectTaskLabels (m : List (String × LabelDescriptor)) (t : DonetickTask) :
    List (String × LabelDescriptor) :=
  if t.is_active then
    if t.labels_v2 = [] then
      if t.label_names = [] then m
      else t.label_names.foldl (fun acc n => insertDescriptor acc (labelEntryName n)) m
    else t.labels_v2.foldl (fun acc l => insertDescriptor acc (labelEntryV2 l)) m
  else m

def descriptorSortKey (d : LabelDescriptor) : String := pyLower d.label_name

def descriptorLe (a b : LabelDescriptor) : Bool :=
  decide (descriptorSortKey a ≤ descriptorSortKey b)

/-- Embeds `_collect_label_descriptors`. -/
def _collect_label_descriptors (tasks : List DonetickTask) : List LabelDescriptor :=
  ((tasks.foldl collectTaskLabels []).map Prod.snd).mergeSort descriptorLe

/-! ### Item mapping (`todo.py` lines 198-219) -/

/-- Embeds `DonetickTodoListBase.get_status`. -/
def get_status (_due_date : Option (List Char)) (is_active : Bool) : TodoItemStatus :=
  if is_active = false then TodoItemStatus.Completed else TodoItemStatus.NeedsAction

/-- Python rendering of the optional due date inside `"%s--%s"`; `None` prints as
`"None"`, a datetime as its (dash-separated, `"--"`-free) textual form, carried
here as the chars of that rendering. -/
def pyStrOptChars (s : Option (List Char)) : List Char :=
  match s with
  | none => ['N', 'o', 'n', 'e']
  | some cs => cs

/-- `uid="%s--%s" % (task.id, task.next_due_date)`. -/
def uidChars (t : DonetickTask) : List Char :=
  intChars t.id ++ '-' :: '-' :: pyStrOptChars t.next_due_date

/-- The `TodoItem(...)` built per task in `todo_items`. -/
def toItem (t : DonetickTask) : TodoItem :=
  ⟨t.name, uidChars t, get_status t.next_due_date t.is_active, t.next_due_date,
    some (pyOrStr t.description "")⟩

/-- Embeds the `todo_items` property: `None` data is surfaced as `none`, else the
filtered tasks (with a final `is_active` guard) are mapped to items. -/
def todoItemsOf (filt : List DonetickTask → List DonetickTask)
    (data : Option (List DonetickTask)) : Option (List TodoItem) :=
  match data with
  | none => none
  | some tasks => some (((filt tasks).filter (fun t => t.is_active)).map toItem)

/-! ### The three `_filter_tasks` overrides (`todo.py` lines 382-447) -/

/-- Embeds `DonetickAllTasksList._filter_tasks`. -/
def allFilterTasks (tasks : List DonetickTask) : List DonetickTask :=
  tasks.filter (fun t => t.is_active)

/-- Embeds `DonetickAssigneeTasksList._filter_tasks` for a member with user id `uid`. -/
def assigneeFilterTasks (uid : Int) (tasks : List DonetickTask) : List DonetickTask :=
  tasks.filter (fun t => t.is_active && t.assigned_to == some uid)

/-- Embeds `DonetickLabelTasksList._task_matches_label`: the id pass over
`labels_v2` (entered only when the list carries an id and `labels_v2` is truthy),
then — also when the id pass found nothing — the normalized-name pass. -/
def _task_matches_label (label_id : Option Int) (normalized_name : Option String)
    (t : DonetickTask) : Bool :=
  (match label_id with
   | some lid => t.labels_v2 != [] && t.labels_v2.any (fun l => l.id == some lid)
   | none => false) ||
  (match normalized_name with
   | some n => n != "" && t.label_names_normalized.contains n
   | none => false)

/-- Embeds `DonetickLabelTasksList._filter_tasks`. -/
def labelFilterTasks (label_id : Option Int) (normalized_name : Option String)
    (tasks : List DonetickTask) : List DonetickTask :=
  tasks.filter (fun t => t.is_active && _task_matches_label label_id normalized_name t)

/-! ### Completion-user resolution (`todo.py` lines 351-371) -/

/-- Python truthiness of `task.assigned_to` (`None` and `0` are falsy). -/
def pyTruthyOptInt (x : Option Int) : Bool :=
  match x with
  | none => false
  | some i => i != 0

/-- The `for task in self.coordinator.data` loop: first task whose id matches and
whose `assigned_to` is truthy yields that `assigned_to`. -/
def completionLoop (task_id : Int) : List DonetickTask → Option Int
  | [] => none
  | t :: rest =>
    if t.id == task_id && pyTruthyOptInt t.assigned_to then t.assigned_to
    else completionLoop task_id rest

/-- Embeds `DonetickTodoListBase._get_completion_user_id`; `member` is the
`_member` attribute (present only on assignee lists), `data` the coordinator
cache, and the `ValueError` of `int(...)` on a malformed uid is the error case. -/
def _get_completion_user_id (member : Option DonetickMember)
    (data : Option (List DonetickTask)) (uid : List Char) : Except PyErr (Option Int) :=
  match member with
  | some m => Except.ok (some m.user_id)
  | none =>
    match parseTaskId uid with
    | none => Except.error PyErr.valueError
    | some task_id =>
      Except.ok
        (match data with
         | none => none
         | some tasks => if tasks = [] then none else completionLoop task_id tasks)

/-! ### `async_update_todo_item` (`todo.py` lines 276-325)

The API client is an oracle pair (`complete_task`, `update_task`); the outcome
records the propagated result, the final in-memory item, the remote calls made
and whether `coordinator.async_refresh` was requested.  The nested
`self.async_update_todo_item(item)` on line 303 is not awaited in the source —
the coroutine it builds is discarded — so it contributes no effect here. -/

inductive RemoteCall
  | completeTask (task_id : Int) (completed_by : Option Int)
  | updateTask (task_id : Int) (name : String) (description : Option String)
      (due_date : Option (List Char))
deriving DecidableEq

structure UpdateEnv where
  data : Option (List DonetickTask)
  member : Option DonetickMember
  complete_task : Int → Option Int → Except PyErr DonetickTask
  update_task : Int → String → Option String → Option (List Char) → Except PyErr Unit

structure UpdateOutcome where
  result : Except PyErr Unit
  item : TodoItem
  calls : List RemoteCall
  refreshed : Bool
deriving DecidableEq

/-- Python truthiness of `self.coordinator.data` (`None` and `[]` are falsy). -/
def pyTruthyData (data : Option (List DonetickTask)) : Bool :=
  match data with
  | none => false
  | some l => l != []

def async_update_todo_item (env : UpdateEnv) (item : TodoItem) : UpdateOutcome :=
  if pyTruthyData env.data = false then ⟨Except.ok (), item, [], false⟩
  else
    match parseTaskId item.uid with
    | none => ⟨Except.error PyErr.valueError, item, [], false⟩
    | some task_id =>
      if item.status = TodoItemStatus.Completed then
        match _get_completion_user_id env.member env.data item.uid with
        | Except.error e => ⟨Except.error e, item, [], false⟩
        | Except.ok completed_by =>
          match env.complete_task task_id completed_by with
          | Except.error e =>
            ⟨Except.error e, item, [RemoteCall.completeTask task_id completed_by], false⟩
          | Except.ok res =>
            if res.frequency_type != "once" then
              ⟨Except.ok (),
                { item with status := TodoItemStatus.NeedsAction, due := res.next_due_date },
                [RemoteCall.completeTask task_id completed_by], true⟩
            else
              ⟨Except.ok (), item, [RemoteCall.completeTask task_id completed_by], true⟩
      else
        match env.update_task task_id item.summary item.description item.due with
        | Except.error e =>
          ⟨Except.error e, item,
            [RemoteCall.updateTask task_id item.summary item.description item.due], false⟩
        | Except.ok _ =>
          ⟨Except.ok (), item,
            [RemoteCall.updateTask task_id item.summary item.description item.due], true⟩

/-! ### `async_delete_todo_items` (`todo.py` lines 327-349)

`deleteGo` is the `for uid in uids` loop: it accumulates the ids whose delete
call returned `True` and stops at the first raised error (a `ValueError` from
`int(...)` or an error from the client).  The `async_refresh` on line 349 sits
after the loop and outside any `finally`, so it runs only when the loop
finishes without raising. -/

structure DeleteOutcome where
  result : Except PyErr Unit
  deleted : List Int
  refreshed : Bool
deriving DecidableEq

def deleteGo (f : Int → Except PyErr Bool) : List (List Char) → List Int × Option PyErr
  | [] => ([], none)
  | uid :: rest =>
    match parseTaskId uid with
    | none => ([], some PyErr.valueError)
    | some tid =>
      match f tid with
      | Except.error e => ([], some e)
      | Except.ok true =>
        ((deleteGo f rest).1.cons tid, (deleteGo f rest).2)
      | Except.ok false => deleteGo f rest

def async_delete_todo_items (f : Int → Except PyErr Bool) (uids : List (List Char)) :
    DeleteOutcome :=
  match (deleteGo f uids).2 with
  | none => ⟨Except.ok (), (deleteGo f uids).1, true⟩
  | some e => ⟨Except.error e, (deleteGo f uids).1, false⟩

/-! ### Spec-side definitions (the claims' wording, for comparison) -/

/-- The §3 matching rule as the spec words it: when both the list and the label
carry an id, only equal ids match; the normalized-name comparison applies only
when an id is absent on one side. -/
def specLabelMatches (list_id : Option Int) (list_name : Option String) (l : DtLabel) : Bool :=
  match list_id, l.id with
  | some a, some b => a == b
  | _, _ =>
    match list_name, _normalize_label_name l.name with
    | some n, some m => n == m
    | _, _ => false

/-- The completion rule as claim C7 words it: the fixed member's user id, else
the `assigned_to` of the cached task whose id matches the embedded task id when
present, else none. -/
def specCompletionUserId (member : Option DonetickMember)
    (data : Option (List DonetickTask)) (task_id : Int) : Option Int :=
  match member with
  | some m => some m.user_id
  | none => ((data.getD []).find? (fun t => t.id == task_id)).bind (fun t => t.assigned_to)

/-- The ids among `uids` whose delete call returns `True` (claim C2's
"deletions already executed"). -/
def successfulDeletes (f : Int → Except PyErr Bool) (uids : List (List Char)) : List Int :=
  uids.filterMap (fun u =>
    match parseTaskId u with
    | none => none
    | some tid =>
      match f tid with
      | Except.ok true => some tid
      | _ => none)

/-- The usable `label_map` entries a single task contributes (claim C6's
wording: `labels_v2` when present, else the legacy names). -/
def taskLabelEntries (t : DonetickTask) : List (String × LabelDescriptor) :=
  if t.labels_v2 = [] then t.label_names.filterMap labelEntryName
  else t.labels_v2.filterMap labelEntryV2

/-- All usable label entries of the active tasks, in traversal order. -/
def activeLabelEntries (tasks : List DonetickTask) : List (String × LabelDescriptor) :=
  (tasks.filter (fun t => t.is_active)).flatMap taskLabelEntries

/-- First-occurrence-wins deduplication by key (claim C6's wording). -/
def dedupByKey : List (String × LabelDescriptor) → List (String × LabelDescriptor)
  | [] => []
  | e :: es => e :: (dedupByKey es).filter (fun p => p.1 != e.1)

/-! ### Concrete instances used by counterexamples and witnesses -/

/-- An active task carrying one v2 label whose id is 2 but whose name matches;
its `uid` would start with `"7--"`. -/
def labelCexTask : DonetickTask :=
  ⟨7, "Dishes", none, true, none, none, "once", [⟨some 2, some "chores", none⟩], []⟩

/-- An active cached task with id 1 whose `assigned_to` is the (falsy) user id 0. -/
def completionCexTask : DonetickTask :=
  ⟨1, "Dishes", none, true, none, some 0, "once", [], []⟩

def memberSeven : DonetickMember := ⟨7, "Ann", "ann", true⟩

/-- The server-returned record for a completed weekly task. -/
def weeklyResTask : DonetickTask :=
  ⟨1, "Dishes", none, true, some ['2', '0', '2', '4', '0', '1', '0', '8'], some 5, "weekly", [], []⟩

def weeklyEnv : UpdateEnv :=
  ⟨some [weeklyResTask], some ⟨5, "Bob", "bob", true⟩,
    fun _ _ => Except.ok weeklyResTask, fun _ _ _ _ => Except.ok ()⟩

def completedItem : TodoItem :=
  ⟨"Dishes", ['1', '-', '-', 'x'], TodoItemStatus.Completed, some ['x'], some ""⟩

/-- An environment whose coordinator cache is absent. -/
def emptyCacheEnv : UpdateEnv :=
  ⟨none, none, fun _ _ => Except.error PyErr.apiError,
    fun _ _ _ _ => Except.error PyErr.apiError⟩

/-- A delete oracle that succeeds on id 1 and raises on every other id. -/
def deleteOracle (tid : Int) : Except PyErr Bool :=
  if tid = 1 then Except.ok true else Except.error PyErr.apiError

/-- `ddFree s` holds when `s` contains no `"--"` occurrence and does not end in
`'-'`: exactly the prefixes that `splitDD` recovers intact. -/
def ddFree : List Char → Bool
  | [] => true
  | c :: rest =>
    if c = '-' ∧ rest.head? = some '-' then false
    else if c = '-' ∧ rest = [] then false
    else ddFree rest

/-! ### Lemmas about the decimal rendering and uid parsing -/

theorem digitChar_isDigit (d : Nat) : (digitChar d).isDigit = true := by
  match d with
  | 0 | 1 | 2 | 3 | 4 | 5 | 6 | 7 | 8 => decide
  | _ + 9 => rfl

theorem digitVal_digitChar (d : Nat) (h : d < 10) : digitVal (digitChar d) = d := by
  interval_cases d <;> decide

theorem isDigit_ne_dash (c : Char) (h : c.isDigit = true) : c ≠ '-' := by
  intro he
  subst he
  exact absurd h (by decide)

theorem natCharsAux_spec (fuel : Nat) : ∀ n : Nat, n < fuel →
    natCharsAux fuel n ≠ [] ∧ (∀ c ∈ natCharsAux fuel n, c.isDigit = true) ∧
    List.foldl (fun a c => 10 * a + digitVal c) 0 (natCharsAux fuel n) = n := by
  induction fuel with
  | zero => intro n h; omega
  | succ fuel ih =>
    intro n h
    by_cases h10 : n < 10
    · refine ⟨by simp [natCharsAux, h10], ?_, ?_⟩
      · intro c hc
        simp [natCharsAux, h10] at hc
        subst hc
        exact digitChar_isDigit n
      · simp [natCharsAux, h10, digitVal_digitChar n h10]
    · have hdiv : n / 10 < fuel := by
        have hlt : n / 10 < n := Nat.div_lt_self (by omega) (by omega)
        omega
      obtain ⟨hne, hdig, hfold⟩ := ih (n / 10) hdiv
      refine ⟨by simp [natCharsAux, h10], ?_, ?_⟩
      · intro c hc
        simp [natCharsAux, h10] at hc
        rcases hc with hc | hc
        · exact hdig c hc
        · subst hc
          exact digitChar_isDigit _
      · have hmod : n % 10 < 10 := Nat.mod_lt n (by omega)
        simp [natCharsAux, h10, List.foldl_append, hfold, digitVal_digitChar _ hmod]
        omega

theorem natChars_ne_nil (n : Nat) : natChars n ≠ [] :=
  (natCharsAux_spec (n + 1) n (by omega)).1

theorem natChars_digits (n : Nat) : ∀ c ∈ natChars n, c.isDigit = true :=
  (natCharsAux_spec (n + 1) n (by omega)).2.1

theorem natChars_foldl (n : Nat) :
    List.foldl (fun a c => 10 * a + digitVal c) 0 (natChars n) = n :=
  (natCharsAux_spec (n + 1) n (by omega)).2.2

theorem pyIntNat_of_digits (s : List Char) (hne : s ≠ [])
    (hdig : ∀ c ∈ s, c.isDigit = true) :
    pyIntNat s = some (s.foldl (fun a c => 10 * a + digitVal c) 0) := by
  cases s with
  | nil => exact absurd rfl hne
  | cons c rest =>
    simp only [pyIntNat]
    rw [if_pos (List.all_eq_true.mpr hdig)]

theorem pyIntNat_natChars (n : Nat) : pyIntNat (natChars n) = some n := by
  rw [pyIntNat_of_digits _ (natChars_ne_nil n) (natChars_digits n), natChars_foldl n]

theorem ddFree_cons (c : Char) (rest : List Char) :
    ddFree (c :: rest) =
      if c = '-' ∧ rest.head? = some '-' then false
      else if c = '-' ∧ rest = [] then false
      else ddFree rest := rfl

theorem splitDD_cons (c : Char) (rest : List Char) :
    splitDD (c :: rest) =
      if c = '-' ∧ rest.head? = some '-' then [] else c :: splitDD rest := rfl

theorem pyInt_cons (c : Char) (rest : List Char) :
    pyInt (c :: rest) =
      if c = '-' then (pyIntNat rest).map (fun n => -(Int.ofNat n))
      else (pyIntNat (c :: rest)).map (fun n => Int.ofNat n) := rfl

theorem ddFree_of_digits (s : List Char) (h : ∀ c ∈ s, c.isDigit = true) :
    ddFree s = true := by
  induction s with
  | nil => rfl
  | cons c rest ih =>
    have hc : c ≠ '-' := isDigit_ne_dash c (h c (List.mem_cons_self c rest))
    rw [ddFree_cons, if_neg (by simp [hc]), if_neg (by simp [hc])]
    exact ih (fun x hx => h x (List.mem_cons_of_mem _ hx))

theorem splitDD_append (x s : List Char) (h : ddFree x = true) :
    splitDD (x ++ '-' :: '-' :: s) = x := by
  induction x with
  | nil => simp [splitDD]
  | cons c x' ih =>
    cases x' with
    | nil =>
      have hc : c ≠ '-' := by
        intro he
        subst he
        simp [ddFree] at h
      simp [splitDD, hc]
    | cons c2 x'' =>
      have hcc : ¬(c = '-' ∧ c2 = '-') := by
        rintro ⟨h1, h2⟩
        subst h1
        subst h2
        simp [ddFree] at h
      have h' : ddFree (c2 :: x'') = true := by
        rw [ddFree_cons] at h
        rw [if_neg (by simpa using hcc), if_neg (by simp)] at h
        exact h
      simp only [List.cons_append]
      rw [splitDD_cons, if_neg (by simpa using hcc)]
      exact congrArg (c :: ·) (ih h')

theorem ddFree_intChars (i : Int) : ddFree (intChars i) = true := by
  unfold intChars
  split
  · obtain ⟨c, rest, hcr⟩ := List.exists_cons_of_ne_nil (natChars_ne_nil i.natAbs)
    rw [hcr]
    have hc : c ≠ '-' := by
      refine isDigit_ne_dash c ?_
      have hd := natChars_digits i.natAbs
      rw [hcr] at hd
      exact hd c (List.mem_cons_self c rest)
    have hrest : ddFree (c :: rest) = true := by
      rw [← hcr]
      exact ddFree_of_digits _ (natChars_digits _)
    rw [ddFree_cons, if_neg (by simp [hc]), if_neg (by simp)]
    exact hrest
  · exact ddFree_of_digits _ (natChars_digits _)

theorem pyInt_intChars (i : Int) : pyInt (intChars i) = some i := by
  unfold intChars
  split
  · rename_i hneg
    rw [pyInt_cons, if_pos rfl, pyIntNat_natChars]
    simp only [Option.map_some', Option.some.injEq, Int.ofNat_eq_natCast]
    omega
  · rename_i hneg
    obtain ⟨c, rest, hcr⟩ := List.exists_cons_of_ne_nil (natChars_ne_nil i.toNat)
    have hc : c ≠ '-' := by
      refine isDigit_ne_dash c ?_
      have hd := natChars_digits i.toNat
      rw [hcr] at hd
      exact hd c (List.mem_cons_self c rest)
    rw [hcr, pyInt_cons, if_neg hc, ← hcr, pyIntNat_natChars]
    simp only [Option.map_some', Option.some.injEq, Int.ofNat_eq_natCast]
    omega

/-! ### Lemmas about completion-user resolution and deletion -/

theorem completionLoop_eq_find (tid : Int) (l : List DonetickTask) :
    completionLoop tid l =
      (l.find? (fun t => t.id == tid && pyTruthyOptInt t.assigned_to)).bind
        (fun t => t.assigned_to) := by
  induction l with
  | nil => rfl
  | cons t rest ih =>
    by_cases h : (t.id == tid && pyTruthyOptInt t.assigned_to) = true
    · simp [completionLoop, List.find?_cons, h]
    · rw [Bool.not_eq_true] at h
      simp [completionLoop, List.find?_cons, h, ih]

theorem deleteGo_cons (f : Int → Except PyErr Bool) (u : List Char) (rest : List (List Char)) :
    deleteGo f (u :: rest) =
      (match parseTaskId u with
       | none => ([], some PyErr.valueError)
       | some tid =>
         match f tid with
         | Except.error e => ([], some e)
         | Except.ok true => ((deleteGo f rest).1.cons tid, (deleteGo f rest).2)
         | Except.ok false => deleteGo f rest) := rfl

theorem deleteGo_append_of_ok (f : Int → Except PyErr Bool) (xs ys : List (List Char))
    (h : (deleteGo f xs).2 = none) :
    deleteGo f (xs ++ ys) = ((deleteGo f xs).1 ++ (deleteGo f ys).1, (deleteGo f ys).2) := by
  induction xs with
  | nil => simp [deleteGo]
  | cons u rest ih =>
    rw [deleteGo_cons] at h
    cases hp : parseTaskId u with
    | none =>
      simp only [hp] at h
      simp at h
    | some tid =>
      simp only [hp] at h
      cases hf : f tid with
      | error e =>
        simp only [hf] at h
        simp at h
      | ok b =>
        simp only [hf] at h
        cases b with
        | true =>
          simp only at h
          simp only [List.cons_append, deleteGo_cons, hp, hf]
          rw [ih h]
        | false =>
          simp only at h
          simp only [List.cons_append, deleteGo_cons, hp, hf]
          exact ih h

theorem successfulDeletes_cons (f : Int → Except PyErr Bool) (u : List Char)
    (rest : List (List Char)) :
    successfulDeletes f (u :: rest) =
      (match parseTaskId u with
       | none => successfulDeletes f rest
       | some tid =>
         match f tid with
         | Except.ok true => tid :: successfulDeletes f rest
         | _ => successfulDeletes f rest) := by
  unfold successfulDeletes
  rw [List.filterMap_cons]
  cases hp : parseTaskId u with
  | none => simp only [hp]
  | some tid =>
    simp only [hp]
    cases hf : f tid with
    | error e => simp only [hf]
    | ok b =>
      cases b with
      | true => simp only [hf]
      | false => simp only [hf]

theorem deleteGo_fst_of_ok (f : Int → Except PyErr Bool) (xs : List (List Char))
    (h : (deleteGo f xs).2 = none) :
    (deleteGo f xs).1 = successfulDeletes f xs := by
  induction xs with
  | nil => rfl
  | cons u rest ih =>
    rw [deleteGo_cons] at h
    rw [deleteGo_cons, successfulDeletes_cons]
    cases hp : parseTaskId u with
    | none =>
      simp only [hp] at h
      simp at h
    | some tid =>
      simp only [hp] at h
      simp only [hp]
      cases hf : f tid with
      | error e =>
        simp only [hf] at h
        simp at h
      | ok b =>
        simp only [hf] at h
        cases b with
        | true =>
          simp only at h
          show tid :: (deleteGo f rest).1 = tid :: successfulDeletes f rest
          rw [ih h]
        | false =>
          simp only at h
          show (deleteGo f rest).1 = successfulDeletes f rest
          exact ih h

/-! ### Lemmas about `_collect_label_descriptors` -/

theorem dedupByKey_cons (e : String × LabelDescriptor) (es : List (String × LabelDescriptor)) :
    dedupByKey (e :: es) = e :: (dedupByKey es).filter (fun p => p.1 != e.1) := rfl

theorem foldl_insertDescriptor {α : Type} (g : α → Option (String × LabelDescriptor))
    (xs : List α) (m : List (String × LabelDescriptor)) :
    xs.foldl (fun acc x => insertDescriptor acc (g x)) m =
      (xs.filterMap g).foldl insertKD m := by
  induction xs generalizing m with
  | nil => rfl
  | cons x xs ih =>
    rw [List.foldl_cons, List.filterMap_cons]
    cases hg : g x with
    | none =>
      simp only [hg, insertDescriptor]
      exact ih m
    | some kd =>
      simp only [hg, insertDescriptor]
      rw [List.foldl_cons]
      exact ih (insertKD m kd)

theorem insertKD_eq (m : List (String × LabelDescriptor)) (kd : String × LabelDescriptor) :
    insertKD m kd = if m.any (fun p => p.1 == kd.1) then m else m ++ [kd] := rfl

theorem collectTaskLabels_eq (m : List (String × LabelDescriptor)) (t : DonetickTask) :
    collectTaskLabels m t =
      (if t.is_active then taskLabelEntries t else []).foldl insertKD m := by
  unfold collectTaskLabels taskLabelEntries
  cases hb : t.is_active with
  | false => simp
  | true =>
    by_cases hv : t.labels_v2 = []
    · by_cases hn : t.label_names = []
      · simp [hv, hn]
      · simp only [hv, hn, if_true, if_false, eq_self_iff_true, not_true, ite_true, ite_false]
        exact foldl_insertDescriptor labelEntryName t.label_names m
    · simp only [if_true, eq_self_iff_true, ite_true]
      rw [if_neg hv, if_neg hv]
      exact foldl_insertDescriptor labelEntryV2 t.labels_v2 m

theorem foldl_collectTaskLabels (tasks : List DonetickTask)
    (m : List (String × LabelDescriptor)) :
    tasks.foldl collectTaskLabels m = (activeLabelEntries tasks).foldl insertKD m := by
  induction tasks generalizing m with
  | nil => rfl
  | cons t ts ih =>
    rw [List.foldl_cons, collectTaskLabels_eq]
    unfold activeLabelEntries
    rw [List.filter_cons]
    cases hb : t.is_active with
    | false =>
      simp only [Bool.false_eq_true, if_false, List.foldl_nil]
      rw [ih m]
      unfold activeLabelEntries
      rfl
    | true =>
      simp only [if_true, List.flatMap_cons, List.foldl_append]
      rw [ih ((taskLabelEntries t).foldl insertKD m)]
      unfold activeLabelEntries
      rfl

theorem foldl_insertKD_eq_dedup (es : List (String × LabelDescriptor))
    (m : List (String × LabelDescriptor)) :
    es.foldl insertKD m =
      m ++ (dedupByKey es).filter (fun e => !(m.any (fun p => p.1 == e.1))) := by
  induction es generalizing m with
  | nil => simp [dedupByKey]
  | cons e es ih =>
    rw [List.foldl_cons, dedupByKey_cons, List.filter_cons]
    by_cases hm : m.any (fun p => p.1 == e.1) = true
    · rw [insertKD_eq, if_pos hm, ih]
      simp only [hm, Bool.not_true, Bool.false_eq_true, if_false]
      congr 1
      rw [List.filter_filter]
      refine (List.filter_congr (fun p hp => ?_)).symm
      by_cases hpe : p.1 = e.1
      · have hq : m.any (fun q => q.1 == p.1) = true := by
          rw [hpe]
          exact hm
        simp [hq]
      · simp [bne_iff_ne, hpe]
    · rw [insertKD_eq, if_neg hm, ih]
      have hmf : m.any (fun p => p.1 == e.1) = false := by
        cases hq : m.any (fun p => p.1 == e.1) with
        | false => rfl
        | true => exact absurd hq hm
      simp only [hmf, Bool.not_false, if_true]
      rw [List.append_assoc]
      congr 1
      rw [List.singleton_append, List.filter_filter]
      refine congrArg (e :: ·) ?_
      refine List.filter_congr (fun p hp => ?_)
      rw [List.any_append]
      by_cases hpe : p.1 = e.1
      · simp [hpe, bne_iff_ne]
      · have : (e.1 == p.1) = false := by
          simp [Ne.symm hpe]
        simp [this, bne_iff_ne, hpe]

end Donetick

/-! ### Claims -/

/-- C3: For every task snapshot, the All-tasks filter returns exactly the tasks
with `is_active = true`, preserving the snapshot's original order, and inactive
tasks never appear in the derived item list. -/
theorem all_filter_exactly_active (ts : List Donetick.DonetickTask) :
    (∀ t, t ∈ Donetick.allFilterTasks ts ↔ t ∈ ts ∧ t.is_active = true) ∧
    (Donetick.allFilterTasks ts).Sublist ts ∧
    Donetick.todoItemsOf Donetick.allFilterTasks (some ts) =
      some ((ts.filter (fun t => t.is_active)).map Donetick.toItem) := by
  refine ⟨fun t => ?_, List.filter_sublist ts, ?_⟩
  · simp [Donetick.allFilterTasks, List.mem_filter]
  · simp [Donetick.todoItemsOf, Donetick.allFilterTasks, List.filter_filter]

/-- C4: a task appears in the ByAssignee-filtered result iff it is in the
snapshot, is active, and its `assigned_to` equals the selector's user id. -/
theorem assignee_filter_iff (a : Int) (ts : List Donetick.DonetickTask)
    (t : Donetick.DonetickTask) :
    t ∈ Donetick.assigneeFilterTasks a ts ↔
      t ∈ ts ∧ t.is_active = true ∧ t.assigned_to = some a := by
  simp [Donetick.assigneeFilterTasks, List.mem_filter, and_assoc]

/-- C9: the item list is `none` exactly when the cached snapshot is absent; a
present snapshot (even an empty one) always yields a present item list. -/
theorem todo_items_none_iff_no_cache
    (filt : List Donetick.DonetickTask → List Donetick.DonetickTask)
    (data : Option (List Donetick.DonetickTask)) :
    Donetick.todoItemsOf filt data = none ↔ data = none := by
  cases data <;> simp [Donetick.todoItemsOf]

/-- C5: the item uid is the task id, the literal `"--"`, then the rendered next
due date, and parsing the uid by taking the segment before the first `"--"` and
applying `int` recovers exactly the task id. -/
theorem uid_round_trips_task_id (t : Donetick.DonetickTask) :
    (Donetick.toItem t).uid =
      Donetick.intChars t.id ++ '-' :: '-' :: Donetick.pyStrOptChars t.next_due_date ∧
    Donetick.parseTaskId (Donetick.toItem t).uid = some t.id := by
  refine ⟨rfl, ?_⟩
  show Donetick.parseTaskId (Donetick.uidChars t) = some t.id
  unfold Donetick.parseTaskId Donetick.uidChars
  rw [Donetick.splitDD_append _ _ (Donetick.ddFree_intChars t.id), Donetick.pyInt_intChars]

/-- C1 (counterexample): a label list with id 1 and normalized name `"chores"`
includes an active task whose only label has the different id 2 — the name
fallback fires even though both sides carry ids — so inclusion is not
equivalent to some attached label matching by the §3 precedence. -/
theorem label_filter_id_precedence_cex :
    ¬ (Donetick.labelCexTask ∈
          Donetick.labelFilterTasks (some 1) (some "chores") [Donetick.labelCexTask] ↔
        Donetick.labelCexTask.is_active = true ∧
        ∃ l ∈ Donetick.labelCexTask.labels_v2,
          Donetick.specLabelMatches (some 1) (some "chores") l = true) := by
  decide

/-- C1 (amended): the ByLabel filter includes a task iff it is in the snapshot,
is active, and either some `labels_v2` label carries exactly the list's id, or
the list's normalized name occurs among the task's normalized label names —
the name fallback applies even when both sides carry (unequal) ids. -/
theorem label_filter_membership (label_id : Option Int) (normalized_name : Option String)
    (ts : List Donetick.DonetickTask) (t : Donetick.DonetickTask) :
    t ∈ Donetick.labelFilterTasks label_id normalized_name ts ↔
      t ∈ ts ∧ t.is_active = true ∧
        ((∃ i, label_id = some i ∧ ∃ l ∈ t.labels_v2, l.id = some i) ∨
         (∃ n, normalized_name = some n ∧ n ≠ "" ∧ n ∈ t.label_names_normalized)) := by
  rw [Donetick.labelFilterTasks, List.mem_filter, Bool.and_eq_true]
  refine and_congr_right (fun _ => and_congr_right (fun _ => ?_))
  cases label_id <;> cases normalized_name <;>
    simp [Donetick._task_matches_label, List.any_eq_true]
  · exact fun x hx _ => List.ne_nil_of_mem hx
  · constructor
    · rintro (⟨_, h⟩ | h)
      · exact Or.inl h
      · exact Or.inr h
    · rintro (h | h)
      · obtain ⟨x, hx, hpx⟩ := h
        exact Or.inl ⟨List.ne_nil_of_mem hx, x, hx, hpx⟩
      · exact Or.inr h

/-- C7 (counterexample): with no fixed member and a cache holding the task with
id 1 and `assigned_to = 0`, the code resolves no completing user (the loop
requires a *truthy* `assigned_to`), while the claim's rule — the matching task's
`assigned_to` when present — yields user 0. -/
theorem completion_user_truthiness_cex :
    Donetick._get_completion_user_id none (some [Donetick.completionCexTask])
        ['1', '-', '-', 'x'] = Except.ok none ∧
    Donetick.specCompletionUserId none (some [Donetick.completionCexTask]) 1 = some 0 ∧
    Donetick.parseTaskId ['1', '-', '-', 'x'] = some 1 ∧
    (Except.ok none : Except Donetick.PyErr (Option Int)) ≠
      Except.ok (Donetick.specCompletionUserId none (some [Donetick.completionCexTask]) 1) := by
  decide

/-- C7 (amended): the completing user is the fixed member's user id when the
list has one; otherwise it is the `assigned_to` of the *first* cached task whose
id matches the uid's embedded task id *and* whose `assigned_to` is non-null and
non-zero (Python truthiness); otherwise none. -/
theorem completion_user_resolution (data : Option (List Donetick.DonetickTask))
    (uid : List Char) (tid : Int) (m : Donetick.DonetickMember)
    (h : Donetick.parseTaskId uid = some tid) :
    Donetick._get_completion_user_id (some m) data uid = Except.ok (some m.user_id) ∧
    Donetick._get_completion_user_id none data uid =
      Except.ok
        (((data.getD []).find?
            (fun t => t.id == tid && Donetick.pyTruthyOptInt t.assigned_to)).bind
          (fun t => t.assigned_to)) := by
  refine ⟨rfl, ?_⟩
  unfold Donetick._get_completion_user_id
  simp only [h]
  cases data with
  | none => rfl
  | some tasks =>
    by_cases he : tasks = []
    · subst he
      rfl
    · show Except.ok (if tasks = [] then none else Donetick.completionLoop tid tasks) = _
      rw [if_neg he, Donetick.completionLoop_eq_find]
      rfl

theorem completion_user_resolution_w :
    Donetick.parseTaskId ['1', '-', '-', 'x'] = some 1 ∧
    (Donetick._get_completion_user_id (some Donetick.memberSeven)
        (some [Donetick.completionCexTask]) ['1', '-', '-', 'x'] =
          Except.ok (some Donetick.memberSeven.user_id) ∧
     Donetick._get_completion_user_id none (some [Donetick.completionCexTask])
        ['1', '-', '-', 'x'] =
       Except.ok
         ((((some [Donetick.completionCexTask] :
              Option (List Donetick.DonetickTask)).getD []).find?
             (fun t => t.id == (1 : Int) && Donetick.pyTruthyOptInt t.assigned_to)).bind
           (fun t => t.assigned_to))) :=
  ⟨by decide,
    completion_user_resolution (some [Donetick.completionCexTask]) ['1', '-', '-', 'x'] 1
      Donetick.memberSeven (by decide)⟩

/-- C2 (counterexample): deleting uids `"1--x"`, `"2--y"` where id 2 raises —
id 1 is deleted and the error propagates, but no cache refresh is requested,
contrary to the claim's "a cache-refresh request is still issued". -/
theorem delete_refresh_skipped_cex :
    (Donetick.async_delete_todo_items Donetick.deleteOracle
        [['1', '-', '-', 'x'], ['2', '-', '-', 'y']]).deleted = [1] ∧
    (Donetick.async_delete_todo_items Donetick.deleteOracle
        [['1', '-', '-', 'x'], ['2', '-', '-', 'y']]).result =
      Except.error Donetick.PyErr.apiError ∧
    (Donetick.async_delete_todo_items Donetick.deleteOracle
        [['1', '-', '-', 'x'], ['2', '-', '-', 'y']]).refreshed = false := by
  decide

/-- C2 (amended): when a delete raises, the uids already processed keep their
deletions, the error propagates (aborting the rest), and *no* cache-refresh
request is issued — the refresh runs only when every deletion completes without
raising. -/
theorem delete_failure_aborts_without_refresh (f : Int → Except Donetick.PyErr Bool)
    (uids1 uids2 : List (List Char)) (u : List Char) (tid : Int) (e : Donetick.PyErr)
    (h1 : (Donetick.deleteGo f uids1).2 = none)
    (h2 : Donetick.parseTaskId u = some tid)
    (h3 : f tid = Except.error e) :
    (Donetick.async_delete_todo_items f (uids1 ++ u :: uids2)).result = Except.error e ∧
    (Donetick.async_delete_todo_items f (uids1 ++ u :: uids2)).deleted =
      Donetick.successfulDeletes f uids1 ∧
    (Donetick.async_delete_todo_items f (uids1 ++ u :: uids2)).refreshed = false := by
  have hstep : Donetick.deleteGo f (u :: uids2) = ([], some e) := by
    rw [Donetick.deleteGo_cons]
    simp only [h2, h3]
  have hall := Donetick.deleteGo_append_of_ok f uids1 (u :: uids2) h1
  rw [hstep] at hall
  unfold Donetick.async_delete_todo_items
  rw [hall]
  refine ⟨rfl, ?_, rfl⟩
  show (Donetick.deleteGo f uids1).1 ++ [] = Donetick.successfulDeletes f uids1
  rw [List.append_nil, Donetick.deleteGo_fst_of_ok f uids1 h1]

theorem delete_failure_aborts_without_refresh_w :
    (Donetick.deleteGo Donetick.deleteOracle [['1', '-', '-', 'x']]).2 = none ∧
    Donetick.parseTaskId ['2', '-', '-', 'y'] = some 2 ∧
    Donetick.deleteOracle 2 = Except.error Donetick.PyErr.apiError ∧
    ((Donetick.async_delete_todo_items Donetick.deleteOracle
        ([['1', '-', '-', 'x']] ++ ['2', '-', '-', 'y'] :: [])).result =
          Except.error Donetick.PyErr.apiError ∧
     (Donetick.async_delete_todo_items Donetick.deleteOracle
        ([['1', '-', '-', 'x']] ++ ['2', '-', '-', 'y'] :: [])).deleted =
          Donetick.successfulDeletes Donetick.deleteOracle [['1', '-', '-', 'x']] ∧
     (Donetick.async_delete_todo_items Donetick.deleteOracle
        ([['1', '-', '-', 'x']] ++ ['2', '-', '-', 'y'] :: [])).refreshed = false) :=
  ⟨by decide, by decide, by decide,
    delete_failure_aborts_without_refresh Donetick.deleteOracle [['1', '-', '-', 'x']] []
      ['2', '-', '-', 'y'] 2 Donetick.PyErr.apiError (by decide) (by decide) (by decide)⟩

/-- C10: when the cached snapshot is `None` or the empty list, an update request
returns immediately — no remote call, no cache refresh, the item untouched, and
no error raised. -/
theorem update_dropped_on_empty_cache (env : Donetick.UpdateEnv) (item : Donetick.TodoItem)
    (h : env.data = none ∨ env.data = some []) :
    Donetick.async_update_todo_item env item = ⟨Except.ok (), item, [], false⟩ := by
  have hd : Donetick.pyTruthyData env.data = false := by
    rcases h with h | h <;> simp [Donetick.pyTruthyData, h]
  unfold Donetick.async_update_todo_item
  rw [if_pos hd]

theorem update_dropped_on_empty_cache_w :
    (Donetick.emptyCacheEnv.data = none ∨ Donetick.emptyCacheEnv.data = some []) ∧
    Donetick.async_update_todo_item Donetick.emptyCacheEnv Donetick.completedItem =
      ⟨Except.ok (), Donetick.completedItem, [], false⟩ :=
  ⟨Or.inl rfl,
    update_dropped_on_empty_cache Donetick.emptyCacheEnv Donetick.completedItem (Or.inl rfl)⟩

/-- C8: completing a task whose server-returned record has a frequency other
than `"once"` re-marks the in-memory item as `NeedsAction`, sets its due field
to the server-returned next due date, and still requests the cache refresh after
the (single) completion call. -/
theorem recurring_completion_remarks_item (env : Donetick.UpdateEnv)
    (item : Donetick.TodoItem) (task_id : Int) (cb : Option Int)
    (res : Donetick.DonetickTask)
    (hdata : Donetick.pyTruthyData env.data = true)
    (hparse : Donetick.parseTaskId item.uid = some task_id)
    (hstatus : item.status = Donetick.TodoItemStatus.Completed)
    (hcb : Donetick._get_completion_user_id env.member env.data item.uid = Except.ok cb)
    (hcomplete : env.complete_task task_id cb = Except.ok res)
    (hfreq : res.frequency_type ≠ "once") :
    (Donetick.async_update_todo_item env item).item.status =
        Donetick.TodoItemStatus.NeedsAction ∧
    (Donetick.async_update_todo_item env item).item.due = res.next_due_date ∧
    (Donetick.async_update_todo_item env item).refreshed = true ∧
    (Donetick.async_update_todo_item env item).calls =
      [Donetick.RemoteCall.completeTask task_id cb] := by
  have hbne : (res.frequency_type != "once") = true := by
    simpa [bne_iff_ne] using hfreq
  simp only [Donetick.async_update_todo_item, hdata, hparse, hstatus, hcb, hcomplete, hbne]
  exact ⟨rfl, rfl, rfl, rfl⟩

theorem recurring_completion_remarks_item_w :
    Donetick.pyTruthyData Donetick.weeklyEnv.data = true ∧
    Donetick.parseTaskId Donetick.completedItem.uid = some 1 ∧
    Donetick.completedItem.status = Donetick.TodoItemStatus.Completed ∧
    Donetick._get_completion_user_id Donetick.weeklyEnv.member Donetick.weeklyEnv.data
        Donetick.completedItem.uid = Except.ok (some 5) ∧
    Donetick.weeklyEnv.complete_task 1 (some 5) = Except.ok Donetick.weeklyResTask ∧
    Donetick.weeklyResTask.frequency_type ≠ "once" ∧
    ((Donetick.async_update_todo_item Donetick.weeklyEnv Donetick.completedItem).item.status =
        Donetick.TodoItemStatus.NeedsAction ∧
     (Donetick.async_update_todo_item Donetick.weeklyEnv Donetick.completedItem).item.due =
        Donetick.weeklyResTask.next_due_date ∧
     (Donetick.async_update_todo_item Donetick.weeklyEnv Donetick.completedItem).refreshed =
        true ∧
     (Donetick.async_update_todo_item Donetick.weeklyEnv Donetick.completedItem).calls =
        [Donetick.RemoteCall.completeTask 1 (some 5)]) :=
  ⟨by decide, by decide, by decide, by decide, rfl, by decide,
    recurring_completion_remarks_item Donetick.weeklyEnv Donetick.completedItem 1 (some 5)
      Donetick.weeklyResTask (by decide) (by decide) (by decide) (by decide) rfl (by decide)⟩

/-- C6: `_collect_label_descriptors` equals: collect the usable label entries of
the *active* tasks only (keyed `id_<id>` when an id is present, else
`name_<normalized_name>`; labels with neither are skipped), keep only each
key's first occurrence (so the first occurrence's display name and color win),
and sort the surviving descriptors by case-folded display name — hence the
output is pairwise sorted by that key and inactive tasks contribute nothing. -/
theorem collect_label_descriptors_spec (tasks : List Donetick.DonetickTask) :
    Donetick._collect_label_descriptors tasks =
      ((Donetick.dedupByKey (Donetick.activeLabelEntries tasks)).map Prod.snd).mergeSort
        Donetick.descriptorLe ∧
    List.Pairwise
      (fun a b => Donetick.descriptorSortKey a ≤ Donetick.descriptorSortKey b)
      (Donetick._collect_label_descriptors tasks) ∧
    Donetick._collect_label_descriptors tasks =
      Donetick._collect_label_descriptors (tasks.filter (fun t => t.is_active)) := by
  have hmain : ∀ ts : List Donetick.DonetickTask,
      Donetick._collect_label_descriptors ts =
        ((Donetick.dedupByKey (Donetick.activeLabelEntries ts)).map Prod.snd).mergeSort
          Donetick.descriptorLe := by
    intro ts
    unfold Donetick._collect_label_descriptors
    rw [Donetick.foldl_collectTaskLabels, Donetick.foldl_insertKD_eq_dedup]
    simp
  refine ⟨hmain tasks, ?_, ?_⟩
  · have htrans : ∀ a b c, Donetick.descriptorLe a b = true →
        Donetick.descriptorLe b c = true → Donetick.descriptorLe a c = true := by
      intro a b c hab hbc
      simp only [Donetick.descriptorLe, decide_eq_true_eq] at hab hbc ⊢
      exact le_trans hab hbc
    have htotal : ∀ a b, (Donetick.descriptorLe a b || Donetick.descriptorLe b a) = true := by
      intro a b
      simp only [Donetick.descriptorLe, Bool.or_eq_true, decide_eq_true_eq]
      exact le_total _ _
    have hs := List.sorted_mergeSort htrans htotal
      ((Donetick.dedupByKey (Donetick.activeLabelEntries tasks)).map Prod.snd)
    rw [hmain tasks]
    exact hs.imp (fun h => by
      simpa [Donetick.descriptorLe, decide_eq_true_eq] using h)
  · rw [hmain tasks, hmain (tasks.filter (fun t => t.is_active))]
    have hact : Donetick.activeLabelEntries (tasks.filter (fun t => t.is_active)) =
        Donetick.activeLabelEntries tasks := by
      unfold Donetick.activeLabelEntries
      rw [List.filter_filter]
      simp
    rw [hact]
